import Mathlib

/-!
# Verification of the SincNet filter-synthesis and feature-pipeline code

Shallow embedding of `src/models/sincnet.py`:
* `SincNetFilterConvLayer.__init__`  → `SincNetFilterConvLayer.init`
* the `filters` property             → shape level: `filtersResult`;
  value level: `lowVal`, `highVal`, `bandVal`, `nVal`, `windowVal`,
  `leftVal`, `rawRow`, `bandPassRow`; caching: `LayerState`, `getFilters`
* `SincNet.__init__` / `forward`     → `SincNet.init`, `SincNet.forwardShape`

Machine reals (torch float tensors) are modelled by `ℝ`; tensor shapes by
natural-number arithmetic with torch's documented semantics (`view` succeeds
iff the element counts agree, `Conv1d`/`MaxPool1d` output length is
`(in - kernel) / stride + 1` with floor division).
-/

namespace SincNetModel

/-- `kernel_size % 2 == 0 → kernel_size += 1` (sincnet.py lines 33-34):
even kernel sizes are bumped to the next odd integer. -/
def forceOdd (ks : ℕ) : ℕ := if ks % 2 = 0 then ks + 1 else ks

/-- `self._kernel_size // 2`, the length of the window and time-axis halves. -/
def halfLen (ks : ℕ) : ℕ := forceOdd ks / 2

/-- Number of filter rows actually built: the Mel grid has
`out_channels // 2 + 1` points (line 49), `_low_hz = hz[:-1]` and
`_band_hz = np.diff(hz)` both have `out_channels // 2` entries. -/
def numFilters (oc : ℕ) : ℕ := oc / 2

theorem forceOdd_odd (ks : ℕ) : forceOdd ks % 2 = 1 := by
  unfold forceOdd
  split <;> omega

theorem forceOdd_eq (ks : ℕ) : forceOdd ks = 2 * halfLen ks + 1 := by
  have h := forceOdd_odd ks
  unfold halfLen
  omega

/-- State stored by `SincNetFilterConvLayer.__init__` that the shape-level
claims depend on. -/
structure FilterLayer where
  outChannels : ℕ
  kernelSize : ℕ
  sampleRate : ℕ
  stride : ℕ
  minLowHz : ℕ
  minBandHz : ℕ
deriving DecidableEq, Repr

/-- `SincNetFilterConvLayer.__init__` (lines 16-68): raises `ValueError`
iff `in_channels != 1`; stores the kernel size forced odd.  No other
validation is performed (in particular none on
`min_low_hz + min_band_hz` versus `sample_rate / 2`). -/
def SincNetFilterConvLayer.init (outChannels kernelSize sampleRate stride
    minLowHz minBandHz inChannels : ℕ) : Except String FilterLayer :=
  if inChannels ≠ 1 then
    .error "SincNetFilterConvLayer only support in_channels = 1"
  else
    .ok ⟨outChannels, forceOdd kernelSize, sampleRate, stride, minLowHz, minBandHz⟩

/-- Shape semantics of the `filters` property (lines 70-86).  The
concatenated `band_pass` tensor has `numFilters outChannels` rows of
`kernelSize` entries; `band_pass.view(out_channels, 1, kernel_size)`
(line 86) succeeds iff the element counts agree, and then yields a bank
of shape `(out_channels, 1, kernel_size)`; otherwise torch raises a
`RuntimeError`, modelled as `none`. -/
def filtersResult (l : FilterLayer) : Option (ℕ × ℕ × ℕ) :=
  if numFilters l.outChannels * l.kernelSize = l.outChannels * 1 * l.kernelSize
  then some (l.outChannels, 1, l.kernelSize)
  else none

/-- `Conv1d`/`MaxPool1d` output length: `(in - kernel) / stride + 1`,
floor division (torch documentation, padding 0, dilation 1). -/
def convOutLen (l k s : ℕ) : ℕ := (l - k) / s + 1

/-- Configuration surface of `SincNet.__init__` (lines 103-119). -/
structure SincNetConfig where
  numSincFilters : ℕ
  sincFilterLength : ℕ
  numConvFilters : ℕ
  convFilterLength : ℕ
  poolKernelSize : ℕ
  poolStride : ℕ
  sampleRate : ℕ
  sincFilterStride : ℕ
  sincFilterPadding : ℕ
  sincFilterDilation : ℕ
  minLowHz : ℕ
  minBandHz : ℕ
  sincFilterInChannels : ℕ
  numWavformChannels : ℕ
deriving DecidableEq, Repr

/-- The default keyword values of `SincNet.__init__`. -/
def defaultConfig : SincNetConfig :=
  ⟨80, 251, 60, 5, 3, 3, 16000, 10, 0, 1, 50, 50, 1, 1⟩

structure Model where
  layer : FilterLayer
  cfg : SincNetConfig
deriving DecidableEq, Repr

/-- `SincNet.__init__` (lines 103-151): raises `NotImplementedError` iff
`sample_rate != 16000` (lines 122-123), then constructs the
`SincNetFilterConvLayer`, which raises iff its `in_channels ≠ 1`. -/
def SincNet.init (c : SincNetConfig) : Except String Model :=
  if c.sampleRate ≠ 16000 then
    .error "SincNet only supports 16kHz audio (sample_rate = 16000)"
  else
    match SincNetFilterConvLayer.init c.numSincFilters c.sincFilterLength
        c.sampleRate c.sincFilterStride c.minLowHz c.minBandHz
        c.sincFilterInChannels with
    | .error e => .error e
    | .ok l => .ok ⟨l, c⟩

/-- Shape of `SincNet.forward` (lines 153-166) on a `(batch, ch, n)` input:
the sinc stage must first synthesize its kernel bank (which can fail, see
`filtersResult`); normalisations and `leaky_relu` preserve shape; each of
the three stages applies one convolution and one max-pool length
reduction. -/
def SincNet.forwardShape (m : Model) (batch _ch n : ℕ) : Option (ℕ × ℕ × ℕ) :=
  match filtersResult m.layer with
  | none => none
  | some _ =>
    let l1 := convOutLen n m.layer.kernelSize m.layer.stride
    let p1 := convOutLen l1 m.cfg.poolKernelSize m.cfg.poolStride
    let l2 := convOutLen p1 m.cfg.convFilterLength 1
    let p2 := convOutLen l2 m.cfg.poolKernelSize m.cfg.poolStride
    let l3 := convOutLen p2 m.cfg.convFilterLength 1
    let p3 := convOutLen l3 m.cfg.poolKernelSize m.cfg.poolStride
    some (batch, m.cfg.numConvFilters, p3)

/-- The temporal length the spec's formula `out = floor((in − kernel)/stride) + 1`,
applied once for the convolution and once for the pooling of each of the
three stages, assigns to an input of `n` samples — independent of whether
kernel synthesis succeeds. -/
def pipelineOutLen (c : SincNetConfig) (n : ℕ) : ℕ :=
  let l1 := convOutLen n (forceOdd c.sincFilterLength) c.sincFilterStride
  let p1 := convOutLen l1 c.poolKernelSize c.poolStride
  let l2 := convOutLen p1 c.convFilterLength 1
  let p2 := convOutLen l2 c.poolKernelSize c.poolStride
  let l3 := convOutLen p2 c.convFilterLength 1
  convOutLen l3 c.poolKernelSize c.poolStride

/-! ## Value-level embedding of the `filters` synthesis (lines 73-85)

All filters are independent (each row of `low`/`band` only meets the fixed
`_n` and `_window` buffers), so per-filter scalar parameters `p` (one raw
`_low_hz` entry) and `b` (one raw `_band_hz` entry) suffice. -/

/-- `low = self._min_low_hz + torch.abs(self._low_hz)` (line 73). -/
noncomputable def lowVal (minLow p : ℝ) : ℝ := minLow + |p|

/-- `torch.clamp(x, lo, hi) = min(max(x, lo), hi)` (torch semantics). -/
noncomputable def clampR (x lo hi : ℝ) : ℝ := min (max x lo) hi

/-- `high = torch.clamp(low + self._min_band_hz + torch.abs(self._band_hz),
self._min_low_hz, self._sample_rate/2)` (line 74). -/
noncomputable def highVal (minLow minBand sr p b : ℝ) : ℝ :=
  clampR (lowVal minLow p + minBand + |b|) minLow (sr / 2)

/-- `band = (high-low)[:,0]` (line 75). -/
noncomputable def bandVal (minLow minBand sr p b : ℝ) : ℝ :=
  highVal minLow minBand sr p b - lowVal minLow p

/-- `self._n[j] = 2π * (-(kernel_size//2) + j) / sample_rate` (lines 65-68):
entry `j` of `2π · arange(-(ks//2), 0) / sr`. -/
noncomputable def nVal (sr : ℝ) (ks : ℕ) (j : ℕ) : ℝ :=
  2 * Real.pi * ((j : ℝ) - (halfLen ks : ℝ)) / sr

/-- `self._window[j] = np.hamming(kernel_size)[j]` for `j < kernel_size//2`
(lines 61-64): `0.54 - 0.46·cos(2πj/(M-1))` with `M` the forced-odd kernel
size. -/
noncomputable def windowVal (ks : ℕ) (j : ℕ) : ℝ :=
  0.54 - 0.46 * Real.cos (2 * Real.pi * (j : ℝ) / ((forceOdd ks : ℝ) - 1))

/-- `band_pass_left[j] = ((sin(high·n[j]) - sin(low·n[j])) / (n[j]/2)) · window[j]`
(lines 77-80). -/
noncomputable def leftVal (minLow minBand sr : ℝ) (ks : ℕ) (p b : ℝ) (j : ℕ) : ℝ :=
  ((Real.sin (highVal minLow minBand sr p b * nVal sr ks j)
      - Real.sin (lowVal minLow p * nVal sr ks j))
    / (nVal sr ks j / 2)) * windowVal ks j

/-- Entry `k` of the concatenated `band_pass = cat[left, center, right]`
(lines 81-84) before normalisation: the left half for `k < ks//2`, the
center tap `2·band` at `k = ks//2`, and `torch.flip(left)` beyond, i.e.
`left[2·(ks//2) - k]`. -/
noncomputable def rawRow (minLow minBand sr : ℝ) (ks : ℕ) (p b : ℝ) (k : ℕ) : ℝ :=
  if k < halfLen ks then leftVal minLow minBand sr ks p b k
  else if k = halfLen ks then 2 * bandVal minLow minBand sr p b
  else leftVal minLow minBand sr ks p b (2 * halfLen ks - k)

/-- `band_pass = band_pass / (2*band[:,None])` (line 85): entry `k` of a
synthesized kernel row. -/
noncomputable def bandPassRow (minLow minBand sr : ℝ) (ks : ℕ) (p b : ℝ)
    (k : ℕ) : ℝ :=
  rawRow minLow minBand sr ks p b k / (2 * bandVal minLow minBand sr p b)

/-! ## The memoized `filters` property (lines 70-72)

`@property @lru_cache(maxsize=1)` wraps the whole synthesis body of lines
73-86, including the final `view`.  `functools.lru_cache` stores a result
only when the wrapped call returns normally; a call that raises caches
nothing.  Modelled as explicit state: `filtersBody` is one execution of
the body (with its error path — the `view` of line 86 — included),
`getFilters` is one read of the property, and `setLowParam`/`setBandParam`
mutate a raw parameter and leave the cache as the code leaves the
`lru_cache`. -/

structure LayerState where
  outChannels : ℕ
  minLowHz : ℝ
  minBandHz : ℝ
  sampleRate : ℝ
  kernelSize : ℕ
  lowParam : ℕ → ℝ
  bandParam : ℕ → ℝ
  cache : Option (ℕ → ℕ → ℝ)

/-- One execution of the synthesis body (lines 73-86) on the current
parameters: row `i` is synthesized from `_low_hz[i]`/`_band_hz[i]`, and
the final `band_pass.view(out_channels, 1, kernel_size)` succeeds iff the
element counts agree (`kernelSize` here is the constructor-stored,
already odd, size — `forceOdd` is idempotent on it); otherwise a
`RuntimeError` propagates, modelled as `none`. -/
noncomputable def filtersBody (s : LayerState) : Option (ℕ → ℕ → ℝ) :=
  if numFilters s.outChannels * forceOdd s.kernelSize
      = s.outChannels * 1 * forceOdd s.kernelSize then
    some (fun i k => bandPassRow s.minLowHz s.minBandHz s.sampleRate
      s.kernelSize (s.lowParam i) (s.bandParam i) k)
  else none

/-- One read of the `filters` property: serve the `lru_cache` entry if
present; otherwise run the body, caching the result only when the body
returns normally — a raising call leaves the cache empty and the
exception propagates to the reader. -/
noncomputable def getFilters (s : LayerState) :
    Option (ℕ → ℕ → ℝ) × LayerState :=
  match s.cache with
  | some k => (some k, s)
  | none =>
    match filtersBody s with
    | some k => (some k, { s with cache := some k })
    | none => (none, s)

/-- Assigning to the raw low-cutoff parameter (`_low_hz`); the `lru_cache`
is untouched. -/
def setLowParam (s : LayerState) (p : ℕ → ℝ) : LayerState :=
  { s with lowParam := p }

/-- Assigning to the raw bandwidth parameter (`_band_hz`); the `lru_cache`
is untouched. -/
def setBandParam (s : LayerState) (b : ℕ → ℝ) : LayerState :=
  { s with bandParam := b }

/-! ## Shape-level results (C1, C2, C7) -/

/-- The `SincNet` instance `SincNet.__init__` builds from the default
configuration (its sinc layer stores kernel size 251, already odd). -/
def defaultModel : Model := ⟨⟨80, 251, 16000, 10, 50, 50⟩, defaultConfig⟩

/-- C1: the kernel-bank synthesis never returns a bank of shape
`(out_channels, 1, kernel_size)` for any `out_channels ≥ 1`: the code
builds only `out_channels // 2` filter rows (the Mel grid has
`out_channels // 2 + 1` points), so `band_pass.view(out_channels, 1,
kernel_size)` has mismatched element counts and raises a `RuntimeError`. -/
theorem filters_view_always_fails (oc ks sampleRate stride minLow minBand : ℕ)
    (hoc : 1 ≤ oc) (L : FilterLayer)
    (hinit : SincNetFilterConvLayer.init oc ks sampleRate stride minLow minBand 1
      = .ok L) :
    filtersResult L = none := by
  unfold SincNetFilterConvLayer.init at hinit
  simp only [ne_eq, not_true_eq_false, if_false, Except.ok.injEq] at hinit
  subst hinit
  unfold filtersResult numFilters
  have h1 : oc / 2 < oc := Nat.div_lt_self hoc (by norm_num)
  have h2 : 0 < forceOdd ks := by
    have := forceOdd_eq ks
    omega
  have h3 : oc / 2 * forceOdd ks < oc * 1 * forceOdd ks := by
    rw [Nat.mul_one]
    exact Nat.mul_lt_mul_of_lt_of_le h1 (Nat.le_refl _) h2
  simp only [ite_eq_right_iff]
  intro h4
  exact absurd h4 (Nat.ne_of_lt h3)

/-- C1 witness: at the default configuration (`out_channels = 80`,
`kernel_size = 251`) the synthesized bank cannot be reshaped. -/
theorem filters_view_always_fails_witness :
    filtersResult ⟨80, 251, 16000, 10, 50, 50⟩ = none :=
  filters_view_always_fails 80 251 16000 10 50 50 (by norm_num)
    ⟨80, 251, 16000, 10, 50, 50⟩ rfl

/-- C2 counterexample: the default model constructs, but `forward` on a
`(1, 1, 16000)` input does not produce a `(1, 60, 166)` tensor (kernel
synthesis fails at the `view`, so the first stage raises). -/
theorem forward_default_not_166 :
    SincNet.init defaultConfig = .ok defaultModel ∧
    SincNet.forwardShape defaultModel 1 1 16000 ≠ some (1, 60, 166) := by
  exact ⟨rfl, by decide⟩

/-- C2 amended: at the default configuration `forward` on `(1, 1, 16000)`
yields no output at all (the sinc kernel reshape fails), and the spec's
own length formula `out = floor((in − kernel)/stride) + 1`, applied once
for the convolution and once for the pooling of each stage, gives a final
temporal length of 56, not 166. -/
theorem forward_default_shape :
    SincNet.init defaultConfig = .ok defaultModel ∧
    SincNet.forwardShape defaultModel 1 1 16000 = none ∧
    pipelineOutLen defaultConfig 16000 = 56 := by
  refine ⟨rfl, by decide, by decide⟩

/-- C7 counterexample: a configuration with
`min_low_hz + min_band_hz = 8000 ≥ sample_rate/2` constructs successfully —
no consistency check between the cutoff floors and Nyquist exists. -/
theorem init_accepts_inconsistent_floors :
    16000 / 2 ≤ 4000 + 4000 ∧
    SincNet.init ⟨80, 251, 60, 5, 3, 3, 16000, 10, 0, 1, 4000, 4000, 1, 1⟩
      = .ok ⟨⟨80, 251, 16000, 10, 4000, 4000⟩,
             ⟨80, 251, 60, 5, 3, 3, 16000, 10, 0, 1, 4000, 4000, 1, 1⟩⟩ :=
  ⟨by norm_num, rfl⟩

/-- C7 amended: construction fails fast exactly when the sample rate is not
16000 (`NotImplementedError` in `SincNet.__init__`) or the sinc layer's
input channel count is not 1 (`ValueError` in
`SincNetFilterConvLayer.__init__`); `min_low_hz + min_band_hz` versus
`sample_rate/2` is never validated. -/
theorem init_ok_iff (c : SincNetConfig) :
    (∃ m, SincNet.init c = .ok m) ↔
      (c.sampleRate = 16000 ∧ c.sincFilterInChannels = 1) := by
  unfold SincNet.init SincNetFilterConvLayer.init
  by_cases h1 : c.sampleRate = 16000
  · by_cases h2 : c.sincFilterInChannels = 1
    · simp [h1, h2]
    · simp [h1, h2]
  · simp [h1]

/-! ## Concrete evaluations of the cutoff arithmetic (shared helpers) -/

theorem lowVal_7950_eq : lowVal 50 7950 = 8000 := by
  unfold lowVal
  rw [abs_of_nonneg (by norm_num : (0:ℝ) ≤ 7950)]
  norm_num

theorem bandVal_7950_eq : bandVal 50 50 16000 7950 0 = 0 := by
  unfold bandVal highVal clampR
  rw [lowVal_7950_eq, abs_zero]
  rw [max_eq_left (by norm_num), min_eq_right (by norm_num)]
  norm_num

/-! ## Invariant results on the effective cutoffs (C5, C9, C10, C8) -/

/-- C5: `low ≥ min_low_hz` always, `high ≤ sample_rate/2` always, and
`high − low ≥ min_band_hz` whenever the upper clamp at `sample_rate/2`
does not bind (given a non-negative `min_band_hz`). -/
theorem cutoff_invariants (minLow minBand sr p b : ℝ) (hmb : 0 ≤ minBand) :
    minLow ≤ lowVal minLow p ∧
    highVal minLow minBand sr p b ≤ sr / 2 ∧
    (lowVal minLow p + minBand + |b| ≤ sr / 2 →
      minBand ≤ bandVal minLow minBand sr p b) := by
  have habsp := abs_nonneg p
  have habsb := abs_nonneg b
  refine ⟨?_, ?_, ?_⟩
  · unfold lowVal; linarith
  · unfold highVal clampR; exact min_le_right _ _
  · intro hx
    unfold bandVal highVal clampR at *
    have hmax : max (lowVal minLow p + minBand + |b|) minLow
        = lowVal minLow p + minBand + |b| := by
      apply max_eq_left; unfold lowVal; linarith
    rw [hmax, min_eq_left hx]
    linarith

/-- C5 witness at the default floors with zero raw parameters. -/
theorem cutoff_invariants_witness :
    (50:ℝ) ≤ lowVal 50 0 ∧
    highVal 50 50 16000 0 0 ≤ 16000 / 2 ∧
    (50:ℝ) ≤ bandVal 50 50 16000 0 0 :=
  ⟨(cutoff_invariants 50 50 16000 0 0 (by norm_num)).1,
   (cutoff_invariants 50 50 16000 0 0 (by norm_num)).2.1,
   (cutoff_invariants 50 50 16000 0 0 (by norm_num)).2.2
     (by unfold lowVal; rw [abs_zero]; norm_num)⟩

/-- C9: with everything else fixed, the effective bandwidth
`band = high − low` is monotonically non-decreasing in `min_band_hz`. -/
theorem band_monotone_minBand (minLow sr p b mb1 mb2 : ℝ) (h : mb1 ≤ mb2) :
    bandVal minLow mb1 sr p b ≤ bandVal minLow mb2 sr p b := by
  unfold bandVal highVal clampR
  have hmono : min (max (lowVal minLow p + mb1 + |b|) minLow) (sr / 2)
      ≤ min (max (lowVal minLow p + mb2 + |b|) minLow) (sr / 2) := by
    apply min_le_min _ (le_refl _)
    apply max_le_max _ (le_refl _)
    linarith
  linarith

/-- C9 witness: raising `min_band_hz` from 50 to 100. -/
theorem band_monotone_minBand_witness :
    bandVal 50 50 16000 0 0 ≤ bandVal 50 100 16000 0 0 :=
  band_monotone_minBand 50 16000 0 0 50 100 (by norm_num)

/-- C10: the clamp's lower bound `min_low_hz` never binds — with
`min_band_hz ≥ 0` the effective high cutoff always equals
`min(low + min_band_hz + |band_param|, sample_rate/2)` — and whenever
`|low_param| > sample_rate/2 − min_low_hz` the effective bandwidth is
strictly negative, so the kernel is normalized by the negative quantity
`2·band` (the synthesis body has no guard against this). -/
theorem clamp_lower_never_binds (minLow minBand sr p b : ℝ) (hmb : 0 ≤ minBand) :
    highVal minLow minBand sr p b
      = min (lowVal minLow p + minBand + |b|) (sr / 2) ∧
    (sr / 2 - minLow < |p| →
      bandVal minLow minBand sr p b < 0 ∧
      2 * bandVal minLow minBand sr p b < 0) := by
  have habsp := abs_nonneg p
  have habsb := abs_nonneg b
  have hmax : max (lowVal minLow p + minBand + |b|) minLow
      = lowVal minLow p + minBand + |b| := by
    apply max_eq_left; unfold lowVal; linarith
  constructor
  · unfold highVal clampR; rw [hmax]
  · intro hp
    have hband : bandVal minLow minBand sr p b < 0 := by
      unfold bandVal highVal clampR
      rw [hmax]
      have hmin : min (lowVal minLow p + minBand + |b|) (sr / 2) ≤ sr / 2 :=
        min_le_right _ _
      unfold lowVal at *
      linarith
    exact ⟨hband, by linarith⟩

/-- C10 witness: `|low_param| = 9000 > 7950 = sample_rate/2 − min_low_hz`
drives the bandwidth negative. -/
theorem clamp_lower_never_binds_witness :
    highVal 50 50 16000 9000 0
      = min (lowVal 50 9000 + 50 + |(0:ℝ)|) (16000 / 2) ∧
    (bandVal 50 50 16000 9000 0 < 0 ∧ 2 * bandVal 50 50 16000 9000 0 < 0) :=
  ⟨(clamp_lower_never_binds 50 50 16000 9000 0 (by norm_num)).1,
   (clamp_lower_never_binds 50 50 16000 9000 0 (by norm_num)).2
     (by rw [abs_of_nonneg (by norm_num : (0:ℝ) ≤ 9000)]; norm_num)⟩

/-- C8 counterexample: at `low_param = 7950` (defaults elsewhere) the
pre-clamp high cutoff `8050` exceeds `sample_rate/2 = 8000`, yet the
normalization divisor `2·band` is exactly zero — the final division by
`2·band` does divide by zero, so kernel finiteness is not guaranteed. -/
theorem clamped_band_zero_division :
    16000 / 2 < lowVal 50 7950 + 50 + |(0:ℝ)| ∧
    2 * bandVal 50 50 16000 7950 0 = 0 :=
  ⟨by rw [lowVal_7950_eq, abs_zero]; norm_num,
   by rw [bandVal_7950_eq]; ring⟩

/-- C8 amended: a filter whose pre-clamp high cutoff exceeds
`sample_rate/2` (with `min_low_hz ≤ sample_rate/2`) has its effective high
cutoff clamped to exactly `sample_rate/2`; but the effective bandwidth can
reach exactly zero (at `|low_param| = sample_rate/2 − min_low_hz`), where
the normalization divisor `2·band` vanishes, so the division-never-by-zero
guarantee does not hold. -/
theorem clamp_exact_at_nyquist (minLow minBand sr p b : ℝ)
    (hml : minLow ≤ sr / 2)
    (hpre : sr / 2 < lowVal minLow p + minBand + |b|) :
    highVal minLow minBand sr p b = sr / 2 ∧
    2 * bandVal 50 50 16000 7950 0 = 0 := by
  constructor
  · unfold highVal clampR
    rw [max_eq_left (by linarith), min_eq_right (le_of_lt hpre)]
  · rw [bandVal_7950_eq]; ring

/-- C8 witness: the clamp binds exactly at `low_param = 7950`. -/
theorem clamp_exact_at_nyquist_witness :
    highVal 50 50 16000 7950 0 = 16000 / 2 ∧
    2 * bandVal 50 50 16000 7950 0 = 0 :=
  clamp_exact_at_nyquist 50 50 16000 7950 0 (by norm_num)
    (by rw [lowVal_7950_eq, abs_zero]; norm_num)

/-! ## Kernel-row results (C4, C6) -/

theorem rawRow_symm (minLow minBand sr p b : ℝ) (ks k : ℕ)
    (hk : k < forceOdd ks) :
    rawRow minLow minBand sr ks p b k
      = rawRow minLow minBand sr ks p b (forceOdd ks - 1 - k) := by
  have he := forceOdd_eq ks
  unfold rawRow
  have hidx : forceOdd ks - 1 - k = 2 * halfLen ks - k := by omega
  rw [hidx]
  rcases Nat.lt_trichotomy k (halfLen ks) with hlt | heq | hgt
  · have h1 : ¬(2 * halfLen ks - k < halfLen ks) := by omega
    have h2 : ¬(2 * halfLen ks - k = halfLen ks) := by omega
    have h3 : 2 * halfLen ks - (2 * halfLen ks - k) = k := by omega
    simp [hlt, h1, h2, h3]
  · subst heq
    have h0 : 2 * halfLen ks - halfLen ks = halfLen ks := by omega
    simp [h0]
  · have h1 : ¬(k < halfLen ks) := by omega
    have h2 : ¬(k = halfLen ks) := by omega
    have h3 : 2 * halfLen ks - k < halfLen ks := by omega
    simp [h1, h2, h3]

/-- C4: every synthesized kernel row is exactly symmetric about its center
sample: entry `k` equals entry `kernel_size − 1 − k` for every valid `k`
and every parameter value, because the right half is `torch.flip` of the
left half and the center tap is shared. -/
theorem kernel_symmetric (minLow minBand sr p b : ℝ) (ks k : ℕ)
    (hk : k < forceOdd ks) :
    bandPassRow minLow minBand sr ks p b k
      = bandPassRow minLow minBand sr ks p b (forceOdd ks - 1 - k) := by
  unfold bandPassRow
  rw [rawRow_symm minLow minBand sr p b ks k hk]

/-- C4 witness: for a kernel of (odd) length 3, entry 0 equals entry 2. -/
theorem kernel_symmetric_witness :
    bandPassRow 50 50 16000 3 0 0 0
      = bandPassRow 50 50 16000 3 0 0 (forceOdd 3 - 1 - 0) :=
  kernel_symmetric 50 50 16000 0 0 3 0 (by decide)

/-- C6: the left half of each kernel is exactly
`((sin(2π·high·t) − sin(2π·low·t)) / (π·t)) · window[j]` at the fixed
negative time axis `t = (j − kernel_size//2)/sample_rate`; the center tap
before normalization is `2·band`; and the stored kernel is the
concatenation divided element-wise by `2·band`. -/
theorem kernel_formula (minLow minBand sr p b : ℝ) (ks j k : ℕ) :
    leftVal minLow minBand sr ks p b j
      = ((Real.sin (2 * Real.pi * highVal minLow minBand sr p b
              * (((j : ℝ) - (halfLen ks : ℝ)) / sr))
          - Real.sin (2 * Real.pi * lowVal minLow p
              * (((j : ℝ) - (halfLen ks : ℝ)) / sr)))
         / (Real.pi * (((j : ℝ) - (halfLen ks : ℝ)) / sr)))
        * windowVal ks j ∧
    rawRow minLow minBand sr ks p b (halfLen ks)
      = 2 * bandVal minLow minBand sr p b ∧
    bandPassRow minLow minBand sr ks p b k
      = rawRow minLow minBand sr ks p b k
          / (2 * bandVal minLow minBand sr p b) := by
  refine ⟨?_, ?_, rfl⟩
  · unfold leftVal nVal
    have h1 : highVal minLow minBand sr p b
        * (2 * Real.pi * ((j : ℝ) - (halfLen ks : ℝ)) / sr)
        = 2 * Real.pi * highVal minLow minBand sr p b
            * (((j : ℝ) - (halfLen ks : ℝ)) / sr) := by ring
    have h2 : lowVal minLow p
        * (2 * Real.pi * ((j : ℝ) - (halfLen ks : ℝ)) / sr)
        = 2 * Real.pi * lowVal minLow p
            * (((j : ℝ) - (halfLen ks : ℝ)) / sr) := by ring
    have h3 : 2 * Real.pi * ((j : ℝ) - (halfLen ks : ℝ)) / sr / 2
        = Real.pi * (((j : ℝ) - (halfLen ks : ℝ)) / sr) := by ring
    rw [h1, h2, h3]
  · unfold rawRow
    simp

/-! ## Memoization of the `filters` property (C3) -/

theorem numFilters_mul_ne (oc ks : ℕ) (hoc : 1 ≤ oc) :
    numFilters oc * forceOdd ks ≠ oc * 1 * forceOdd ks := by
  unfold numFilters
  have h1 : oc / 2 < oc := Nat.div_lt_self hoc (by norm_num)
  have h2 : 0 < forceOdd ks := by
    have := forceOdd_eq ks
    omega
  have h3 : oc / 2 * forceOdd ks < oc * 1 * forceOdd ks := by
    rw [Nat.mul_one]
    exact Nat.mul_lt_mul_of_lt_of_le h1 (Nat.le_refl _) h2
  exact Nat.ne_of_lt h3

/-- C3 counterexample: with `out_channels = 2` (every value ≥ 1 behaves
the same) a read of `filters` raises at the `view` of line 86 and returns
no kernel bank, and after a mutation of the raw low-cutoff parameter the
next read again returns none — in particular not "the kernel bank
computed from the new parameter values" the claim promises. -/
theorem filters_never_returns_kernel :
    (getFilters ⟨2, 50, 50, 16000, 3, fun _ => 0, fun _ => 0, none⟩).1
      = none ∧
    (getFilters (setLowParam
        (getFilters ⟨2, 50, 50, 16000, 3, fun _ => 0, fun _ => 0, none⟩).2
        (fun _ => 7950))).1 = none := by
  constructor <;>
    simp [getFilters, setLowParam, filtersBody, numFilters, forceOdd]

/-- C3 amended: for every layer with `out_channels ≥ 1` and an unpopulated
cache, reading `filters` re-executes the synthesis body on the current
parameter values and raises at the `view` (C1's bug); since `lru_cache`
stores nothing for a raising call, the cache stays empty and the state is
unchanged, and a later read — with the low-cutoff parameter mutated or
not — re-executes the body afresh and raises again: no kernel bank,
stale or fresh, is ever served, so the claimed idempotence and
recompute-after-update behaviors never manifest. -/
theorem filters_read_always_raises (s : LayerState) (q : ℕ → ℝ)
    (hoc : 1 ≤ s.outChannels) (hc : s.cache = none) :
    filtersBody s = none ∧
    getFilters s = (none, s) ∧
    getFilters (setLowParam s q) = (none, setLowParam s q) := by
  have hbody : filtersBody s = none := by
    unfold filtersBody
    rw [if_neg (numFilters_mul_ne s.outChannels s.kernelSize hoc)]
  have hbody2 : filtersBody (setLowParam s q) = none := by
    unfold filtersBody setLowParam
    rw [if_neg (numFilters_mul_ne s.outChannels s.kernelSize hoc)]
  refine ⟨hbody, ?_, ?_⟩
  · unfold getFilters
    rw [hc, hbody]
  · unfold getFilters
    rw [show (setLowParam s q).cache = none from hc, hbody2]

/-- C3 witness: the raising read, the unchanged state, and the raising
read after a parameter mutation, at a concrete two-filter layer. -/
theorem filters_read_always_raises_witness :
    filtersBody ⟨2, 50, 50, 16000, 3, fun _ => 0, fun _ => 0, none⟩
      = none ∧
    getFilters ⟨2, 50, 50, 16000, 3, fun _ => 0, fun _ => 0, none⟩
      = (none, ⟨2, 50, 50, 16000, 3, fun _ => 0, fun _ => 0, none⟩) ∧
    getFilters (setLowParam
        ⟨2, 50, 50, 16000, 3, fun _ => 0, fun _ => 0, none⟩ (fun _ => 7950))
      = (none, setLowParam
          ⟨2, 50, 50, 16000, 3, fun _ => 0, fun _ => 0, none⟩
          (fun _ => 7950)) :=
  filters_read_always_raises
    ⟨2, 50, 50, 16000, 3, fun _ => 0, fun _ => 0, none⟩
    (fun _ => 7950) (by norm_num) rfl

end SincNetModel
